import Mathlib

/-!
Shallow embedding of `spring_boot_exporter.py`: a Prometheus exporter that
discovers Spring Boot containers through the Rancher REST API, scrapes each
instance's `/metrics` JSON endpoint, and re-registers the values as
counter/gauge/summary series.

Network and JSON effects are made explicit: an HTTP world is a function from
URL (or page index) to an outcome, `requests` exceptions and `json.loads`
failures are `Except` errors, and the Prometheus client library's registry is
a transparent record of created collectors and recorded samples.
-/

namespace SpringBootExporter

/-- A Rancher container entry, as consumed by `_extract_spring_boot_apps`
(fields `imageUuid`, `name`, `primaryIpAddress`, `labels`, `state`, `hostId`). -/
structure Container where
  imageUuid : String
  name : String
  primaryIpAddress : String
  labels : List (String × String)
  state : String
  hostId : String
deriving DecidableEq, Repr

/-- The per-instance descriptor dict built in `_extract_spring_boot_apps`:
`{'image', 'name', 'ip', 'stack-name', 'state', 'host'}`. -/
structure App where
  image : String
  name : String
  ip : String
  stackName : Option String
  state : String
  host : String
deriving DecidableEq, Repr

/-- The fields of a constructed `RancherClient`: the parsed image filter
(`self.filterPattern`), the `hostId -> hostname` mapping
(`self.hosts_metadata`), and the resolved self hostname (`self.self_host`). -/
structure RancherClient where
  filterPattern : Option (List String)
  hosts_metadata : List (String × String)
  self_host : String
deriving DecidableEq, Repr

/-- Python `str.split(',')` on the character list: always returns at least one
(possibly empty) chunk; adjacent or trailing commas yield empty chunks. -/
def splitCommas : List Char → List (List Char)
  | [] => [[]]
  | c :: rest =>
    match splitCommas rest, decide (c = ',') with
    | r, true => [] :: r
    | [], false => [[c]]
    | h :: t, false => (c :: h) :: t

/-- Model of the filter parsing in `RancherClient.__init__`:
`None if not filter else filter.split(',')` — `None` and the empty string
give no pattern list, anything else is split on commas. -/
def mkFilterPattern : Option String → Option (List String)
  | none => none
  | some s => if s = "" then none else some ((splitCommas s.data).map List.asString)

/-- Python truthiness of `self.filterPattern` (`None` and `[]` are falsy). -/
def truthyFilterPattern : Option (List String) → Bool
  | none => false
  | some l => !l.isEmpty

/-- Python `haystack.find(needle) != -1`: the needle occurs as a contiguous
substring (the empty needle is found in every string). -/
def findSubstr (haystack needle : String) : Bool :=
  decide (needle.data <:+: haystack.data)

/-- Model of `RancherClient.filter`: reject when the host differs from the self host or
the state is `stopped`; accept when no (truthy) filter pattern is configured;
otherwise accept iff some configured pattern occurs in the image. -/
def RancherClient.filter (c : RancherClient) (data : App) : Bool :=
  if data.host ≠ c.self_host then false
  else if data.state = "stopped" then false
  else if !truthyFilterPattern c.filterPattern then true
  else (c.filterPattern.getD []).any (fun pat => findSubstr data.image pat)

/-- The character replacement performed by `re.sub(r'[\.\-]', '_', m)`:
`.` and `-` become `_`, every other character is unchanged. -/
def sanitizeChar (c : Char) : Char :=
  if c = '.' ∨ c = '-' then '_' else c

/-- Model of `re.sub(r'[\.\-]', '_', m)`: characterwise replacement over the string. -/
def sanitize (m : String) : String :=
  ⟨m.data.map sanitizeChar⟩

/-- Lookup of `hosts_metadata[hostId]` (first binding wins, as in a Python dict
built without duplicate ids). -/
def RancherClient.hostLookup (c : RancherClient) (hostId : String) : Option String :=
  c.hosts_metadata.lookup hostId

/-- Model of `_get_spring_boot_app_host`: `self.hosts_metadata[container['hostId']]` —
a missing key is a `KeyError` that propagates. -/
def RancherClient.getSpringBootAppHost (c : RancherClient) (container : Container) :
    Except String String :=
  match c.hostLookup container.hostId with
  | none => .error ("KeyError: " ++ container.hostId)
  | some h => .ok h

/-- The body of `_extract_spring_boot_apps` for one container: build the
descriptor dict (this resolves the host, and may raise `KeyError`), then ask
the filter. -/
def RancherClient.containerToApp (c : RancherClient) (container : Container) :
    Except String App :=
  match c.getSpringBootAppHost container with
  | .error e => .error e
  | .ok h => .ok { image := container.imageUuid
                   name := container.name
                   ip := container.primaryIpAddress
                   stackName := container.labels.lookup "io.rancher.stack.name"
                   state := container.state
                   host := h }

/-- Model of `_extract_spring_boot_apps`: append each container's descriptor to
`result` when the filter accepts it; a `KeyError` while building the
descriptor propagates. -/
def RancherClient.extractSpringBootApps (c : RancherClient) :
    List Container → List App → Except String (List App)
  | [], result => .ok result
  | container :: rest, result =>
    match c.containerToApp container with
    | .error e => .error e
    | .ok data =>
      c.extractSpringBootApps rest (if c.filter data then result ++ [data] else result)

/-- One page of the paginated `containers` listing: the `data` array and the
`pagination.next` link (pages are addressed by an abstract index standing for
the URL). -/
structure Page where
  data : List Container
  next : Option Nat
deriving DecidableEq, Repr

/-- The `while url:` loop of `get_spring_boot_apps`: fetch the page (a URL the
world does not answer is a fatal request/decode error), extract its
containers, follow `pagination.next` until it is null. Fuel bounds the number
of fetches so the function is total; every run of the source loop that
terminates is reproduced with enough fuel. -/
def getSpringBootAppsLoop (c : RancherClient) (world : Nat → Option Page) :
    Nat → Option Nat → List App → Except String (List App)
  | _, none, result => .ok result
  | 0, some _, _ => .error "out of fuel"
  | fuel + 1, some url, result =>
    match world url with
    | none => .error "requests.get/json.loads failed"
    | some page =>
      match c.extractSpringBootApps page.data result with
      | .error e => .error e
      | .ok result => getSpringBootAppsLoop c world fuel page.next result

/-- Model of `get_spring_boot_apps`: start at the `containers` URL (index 0) with an
empty result list. -/
def getSpringBootApps (c : RancherClient) (world : Nat → Option Page) (fuel : Nat) :
    Except String (List App) :=
  getSpringBootAppsLoop c world fuel (some 0) []

/-- A chain of pages linked in order: page `i` holds the `i`-th data array and
its `pagination.next` points to page `i + 1`, null on the last page. -/
def chainWorld (pages : List (List Container)) : Nat → Option Page :=
  fun i =>
    match pages.get? i with
    | none => none
    | some d => some ⟨d, if i + 1 < pages.length then some (i + 1) else none⟩

/-- The kind of a registered Prometheus series. -/
inductive MetricKind where
  | counter
  | gauge
  | summary
deriving DecidableEq, Repr

/-- One recorded observation:
`metric.labels(name=..., stackName=..., ip=...).inc/set/observe(value)`. -/
structure Sample where
  kind : MetricKind
  metric_name : String
  name : String
  stackName : Option String
  ip : String
  value : Int
deriving DecidableEq, Repr

/-- The state of a `MetricsReader` together with its `CollectorRegistry`:
the keys of `self._counters` / `self._gauges` / `self._summaries` in creation
order, the collectors registered into the registry in creation order, and the
samples recorded so far. -/
structure ReaderState where
  counters : List String
  gauges : List String
  summaries : List String
  registry : List (MetricKind × String)
  samples : List Sample
deriving DecidableEq, Repr

/-- Model of `MetricsReader.__init__`: empty caches, empty registry. -/
def initialReader : ReaderState :=
  { counters := [], gauges := [], summaries := [], registry := [], samples := [] }

/-- Model of `_register_counter`: create the `Counter` (and register it) only when
`metric_name` is not yet cached, then record the labeled `inc(value)`. -/
def registerCounter (st : ReaderState) (app : App) (metric_name : String) (value : Int) :
    ReaderState :=
  let st :=
    if st.counters.contains metric_name then st
    else { st with counters := st.counters ++ [metric_name]
                   registry := st.registry ++ [(MetricKind.counter, metric_name)] }
  { st with samples :=
      st.samples ++ [⟨MetricKind.counter, metric_name, app.name, app.stackName, app.ip, value⟩] }

/-- Model of `_register_gauge`: create the `Gauge` only when not cached, then record
the labeled `set(value)`. -/
def registerGauge (st : ReaderState) (app : App) (metric_name : String) (value : Int) :
    ReaderState :=
  let st :=
    if st.gauges.contains metric_name then st
    else { st with gauges := st.gauges ++ [metric_name]
                   registry := st.registry ++ [(MetricKind.gauge, metric_name)] }
  { st with samples :=
      st.samples ++ [⟨MetricKind.gauge, metric_name, app.name, app.stackName, app.ip, value⟩] }

/-- Model of `_register_summary`: create the `Summary` only when not cached, then
record the labeled `observe(value)`. -/
def registerSummary (st : ReaderState) (app : App) (metric_name : String) (value : Int) :
    ReaderState :=
  let st :=
    if st.summaries.contains metric_name then st
    else { st with summaries := st.summaries ++ [metric_name]
                   registry := st.registry ++ [(MetricKind.summary, metric_name)] }
  { st with samples :=
      st.samples ++ [⟨MetricKind.summary, metric_name, app.name, app.stackName, app.ip, value⟩] }

/-- The loop body of `register_metrics` for one raw key/value pair: sanitize
the key, classify on the raw key (`m.find('counter') == 0`, then
`m.find('gauge') == 0`), strip 8 / 6 characters from the sanitized name for
counters / gauges, full name for summaries. -/
def registerMetricPair (st : ReaderState) (app : App) (m : String) (v : Int) : ReaderState :=
  let metric_name := sanitize m
  if m.startsWith "counter" then registerCounter st app (metric_name.drop 8) v
  else if m.startsWith "gauge" then registerGauge st app (metric_name.drop 6) v
  else registerSummary st app metric_name v

/-- The outcome of `requests.get` on an instance's metrics URL: either the
call raised (timeout, connection error) or it returned a body whose
`json.loads` outcome is the given `Except` (errors are decode failures). A
decoded snapshot is the flat key/value mapping in iteration order. -/
inductive FetchOutcome where
  | exn (err : String)
  | response (body : Except String (List (String × Int)))
deriving Repr

/-- Model of `_format_metrics_url`. -/
def formatMetricsUrl (app : App) : String :=
  "http://" ++ app.ip ++ ":8080/metrics"

/-- Model of `load_metrics`: the `try` wraps only `requests.get` — an exception there
is caught and yields `None`; `json.loads(response.content)` runs outside the
`try`, so a decode failure propagates. -/
def loadMetrics (world : String → FetchOutcome) (app : App) :
    Except String (Option (List (String × Int))) :=
  match world (formatMetricsUrl app) with
  | .exn _ => .ok none
  | .response body =>
    match body with
    | .error e => .error e
    | .ok metrics => .ok (some metrics)

/-- Model of `register_metrics`: fetch the snapshot; on `None` register nothing; else
register every key/value pair in order. A `json.loads` failure propagates. -/
def registerMetrics (world : String → FetchOutcome) (st : ReaderState) (app : App) :
    Except String ReaderState :=
  match loadMetrics world app with
  | .error e => .error e
  | .ok none => .ok st
  | .ok (some metrics) =>
    .ok (metrics.foldl (fun st p => registerMetricPair st app p.1 p.2) st)

/-- The `for app in ...: reader.register_metrics(app)` loop of
`generate_registry`. -/
def registerAll (world : String → FetchOutcome) :
    List App → ReaderState → Except String ReaderState
  | [], st => .ok st
  | app :: rest, st =>
    match registerMetrics world st app with
    | .error e => .error e
    | .ok st => registerAll world rest st

/-- Model of `generate_registry`, given the already-listed visible apps and the
metrics-endpoint world: a fresh reader registers every app's metrics in
order. -/
def generateRegistry (world : String → FetchOutcome) (apps : List App) :
    Except String ReaderState :=
  registerAll world apps initialReader

/-- Model of `registry.restricted_registry(params['name[]'])` of the client library:
keep only the collectors (and their samples) whose name is listed. -/
def restrictedRegistry (st : ReaderState) (names : List String) : ReaderState :=
  { st with registry := st.registry.filter (fun kn => names.contains kn.2)
            samples := st.samples.filter (fun s => names.contains s.metric_name) }

/-- What `MetricsHandler.do_GET` produces on a connection. -/
inductive GetResult where
  | success (body : String)
  | serverError (code : Nat) (message : String) (reraised : String)
  | uncaughtException (err : String)
deriving DecidableEq, Repr

/-- Whether a `GetResult` is a 500 response. -/
def GetResult.isServerError : GetResult → Bool
  | .serverError 500 _ _ => true
  | _ => false

/-- The optional `name[]` restriction step of `do_GET`:
`registry = registry.restricted_registry(params['name[]'])` when the query
parameter is present. -/
def appliedRegistry (registry : ReaderState) (names : Option (List String)) : ReaderState :=
  match names with
  | some ns => restrictedRegistry registry ns
  | none => registry

/-- Model of `MetricsHandler.do_GET`: `generate_registry()` runs before the
`try`, so a build failure propagates with no response written; only
`generate_latest` (the serializer, modelled as an opaque fallible function)
is inside the `try`, and its failure sends
`send_error(500, 'error generating metric output')` and re-raises. -/
def doGet (buildResult : Except String ReaderState)
    (generate_latest : ReaderState → Except String String)
    (names : Option (List String)) : GetResult :=
  match buildResult with
  | .error e => .uncaughtException e
  | .ok registry =>
    match generate_latest (appliedRegistry registry names) with
    | .error e => .serverError 500 "error generating metric output" e
    | .ok output => .success output

/-! Concrete example inputs, used to exercise the model at specific points. -/

/-- A running instance on host `node-a` at IP `10.0.0.5`. -/
def appA : App :=
  { image := "docker:app:1", name := "svc-a", ip := "10.0.0.5", stackName := none
    state := "running", host := "node-a" }

/-- A second running instance on host `node-a` at IP `10.0.0.6`. -/
def appB : App :=
  { image := "docker:app:2", name := "svc-b", ip := "10.0.0.6", stackName := some "stck"
    state := "running", host := "node-a" }

/-- An instance whose image does not contain `app`. -/
def appOther : App :=
  { image := "docker:other:1", name := "svc-o", ip := "10.0.0.7", stackName := none
    state := "running", host := "node-a" }

/-- A metrics world in which every instance returns a body that is not JSON. -/
def badJsonWorld : String → FetchOutcome :=
  fun _ => .response (.error "Expecting value: line 1 column 1 (char 0)")

/-- A metrics world in which every fetch raises (timeout / connection error). -/
def exnWorld : String → FetchOutcome :=
  fun _ => .exn "ConnectTimeout"

/-- A metrics world in which `appA`'s fetch times out and every other
instance answers with one gauge. -/
def mixedWorld : String → FetchOutcome :=
  fun url =>
    if url = "http://10.0.0.5:8080/metrics" then .exn "ConnectTimeout"
    else .response (.ok [("gauge.queue.size", 3)])

/-- A metrics world in which every instance reports the same counter, gauge
and summary keys, so names repeat across instances within one build. -/
def sharedNamesWorld : String → FetchOutcome :=
  fun _ => .response (.ok
    [("counter.requests.total", 5), ("gauge.queue.size", 3), ("latency", 1),
     ("counter.requests.total", 7)])

/-- The registry state built by registering `appA` and `appB` against
`sharedNamesWorld`. -/
def c9final : ReaderState :=
  (generateRegistry sharedNamesWorld [appA, appB]).toOption.getD initialReader

/-- A reader state in which the counter, gauge and summary named `x` already
exist. -/
def st1 : ReaderState :=
  registerCounter (registerGauge (registerSummary initialReader appA "x" 1) appA "x" 2)
    appA "x" 3

/-- A serializer that always succeeds. -/
def okSerializer : ReaderState → Except String String :=
  fun _ => .ok ""

/-- A serializer that always fails. -/
def failSerializer : ReaderState → Except String String :=
  fun _ => .error "serialization failed"

/-- A client on host `node-a` with image filter string `app`. -/
def clientApp : RancherClient :=
  { filterPattern := mkFilterPattern (some "app")
    hosts_metadata := [("h1", "node-a")], self_host := "node-a" }

/-- A client on host `node-a` with image filter string `app,` — a trailing
comma, so the parsed pattern list contains the empty string. -/
def clientTrailingComma : RancherClient :=
  { filterPattern := mkFilterPattern (some "app,")
    hosts_metadata := [("h1", "node-a")], self_host := "node-a" }

/-- A client on host `node-a` with no image filter. -/
def clientNoFilter : RancherClient :=
  { filterPattern := mkFilterPattern none
    hosts_metadata := [("h1", "node-a")], self_host := "node-a" }

/-- A running container on the known host `h1` with the given name and IP. -/
def mkContainer (nm ipAddr : String) : Container :=
  { imageUuid := "docker:app:1", name := nm, primaryIpAddress := ipAddr
    labels := [], state := "running", hostId := "h1" }

/-- Three listing pages of two visible containers each. -/
def pages6 : List (List Container) :=
  [[mkContainer "svc1" "10.0.0.1", mkContainer "svc2" "10.0.0.2"],
   [mkContainer "svc3" "10.0.0.3", mkContainer "svc4" "10.0.0.4"],
   [mkContainer "svc5" "10.0.0.5", mkContainer "svc6" "10.0.0.6"]]

/-- A stopped container whose `hostId` is absent from the host mapping — the
visibility filter would reject it, but the `KeyError` fires first. -/
def orphanContainer : Container :=
  { imageUuid := "docker:app:9", name := "orphan", primaryIpAddress := "10.0.0.9"
    labels := [], state := "stopped", hostId := "hX" }

/-- Consistency between the three name caches and the registry: a collector
of a kind and name is registered exactly once if its name is cached for that
kind, and not at all otherwise. -/
def cacheConsistent (st : ReaderState) : Prop :=
  ∀ n : String,
    st.registry.count (MetricKind.counter, n) =
      (if st.counters.contains n then 1 else 0) ∧
    st.registry.count (MetricKind.gauge, n) =
      (if st.gauges.contains n then 1 else 0) ∧
    st.registry.count (MetricKind.summary, n) =
      (if st.summaries.contains n then 1 else 0)

/-! Helper lemmas. -/

theorem sanitizeChar_idem (c : Char) : sanitizeChar (sanitizeChar c) = sanitizeChar c := by
  by_cases h : c = '.' ∨ c = '-'
  · have h1 : sanitizeChar c = '_' := by rw [sanitizeChar, if_pos h]
    rw [h1]
    decide
  · have h1 : sanitizeChar c = c := by rw [sanitizeChar, if_neg h]
    rw [h1, h1]

theorem splitCommas_ne_nil (l : List Char) : splitCommas l ≠ [] := by
  induction l with
  | nil => simp [splitCommas]
  | cons c rest ih =>
    unfold splitCommas
    cases hr : splitCommas rest <;> cases hc : decide (c = ',') <;> simp

theorem mkFilterPattern_ne_some_nil (f : Option String) : mkFilterPattern f ≠ some [] := by
  cases f with
  | none => simp [mkFilterPattern]
  | some s =>
    by_cases hs : s = ""
    · simp [mkFilterPattern, hs]
    · intro h
      simp only [mkFilterPattern, hs, if_false, Option.some.injEq] at h
      exact splitCommas_ne_nil s.data (List.map_eq_nil_iff.mp h)

theorem registerCounter_samples (st : ReaderState) (app : App) (n : String) (v : Int) :
    (registerCounter st app n v).samples =
      st.samples ++ [⟨MetricKind.counter, n, app.name, app.stackName, app.ip, v⟩] := by
  unfold registerCounter
  split <;> rfl

theorem registerGauge_samples (st : ReaderState) (app : App) (n : String) (v : Int) :
    (registerGauge st app n v).samples =
      st.samples ++ [⟨MetricKind.gauge, n, app.name, app.stackName, app.ip, v⟩] := by
  unfold registerGauge
  split <;> rfl

theorem registerSummary_samples (st : ReaderState) (app : App) (n : String) (v : Int) :
    (registerSummary st app n v).samples =
      st.samples ++ [⟨MetricKind.summary, n, app.name, app.stackName, app.ip, v⟩] := by
  unfold registerSummary
  split <;> rfl

/-! Claim theorems. -/

/-- C5: sanitization is total and idempotent — every `.` and `-` becomes `_`,
no other character is altered (characterwise map over the key), and
sanitizing an already-sanitized key leaves it unchanged. -/
theorem C5_sanitize (s : String) :
    sanitize (sanitize s) = sanitize s ∧
    (sanitize s).data = s.data.map sanitizeChar ∧
    (∀ c : Char, sanitizeChar c = if c = '.' ∨ c = '-' then '_' else c) := by
  refine ⟨?_, rfl, fun c => rfl⟩
  show (⟨(s.data.map sanitizeChar).map sanitizeChar⟩ : String) = ⟨s.data.map sanitizeChar⟩
  rw [List.map_map]
  exact congrArg _ (List.map_congr_left fun c _ => sanitizeChar_idem c)

/-- C3: classification is decided by prefix on the raw key — a key starting
with `counter` records a counter sample named by the sanitized key minus its
first 8 characters; one starting with `gauge` records a gauge sample named by
the sanitized key minus its first 6 characters; any other key records a
summary sample under the full sanitized key. -/
theorem C3_classification (st : ReaderState) (app : App) (m : String) (v : Int) :
    (registerMetricPair st app m v).samples = st.samples ++
      [{ kind := if m.startsWith "counter" then MetricKind.counter
                 else if m.startsWith "gauge" then MetricKind.gauge
                 else MetricKind.summary
         metric_name := if m.startsWith "counter" then (sanitize m).drop 8
                        else if m.startsWith "gauge" then (sanitize m).drop 6
                        else sanitize m
         name := app.name, stackName := app.stackName, ip := app.ip, value := v }] := by
  unfold registerMetricPair
  by_cases h1 : m.startsWith "counter"
  · simp [h1, registerCounter_samples]
  · by_cases h2 : m.startsWith "gauge"
    · simp [h1, h2, registerGauge_samples]
    · simp [h1, h2, registerSummary_samples]

/-- C10: an empty string among the configured filter patterns (as produced by
a trailing or doubled comma in the filter string) makes the filter accept
every non-stopped instance on the self host, whatever its image. -/
theorem C10_empty_pattern (c : RancherClient) (data : App) (ps : List String)
    (hp : c.filterPattern = some ps) (hmem : "" ∈ ps)
    (hh : data.host = c.self_host) (hs : data.state ≠ "stopped") :
    c.filter data = true := by
  have hts : truthyFilterPattern (some ps) = true := by
    cases ps with
    | nil => cases hmem
    | cons a l => rfl
  simp only [RancherClient.filter, hp, hts, hh, hs]
  simp only [ne_eq, not_true_eq_false, if_false, hs, Bool.not_true, Bool.false_eq_true,
    Option.getD_some]
  refine List.any_eq_true.mpr ⟨"", hmem, ?_⟩
  exact decide_eq_true List.nil_infix

/-- C10 witness: with filter string `app,` (trailing comma) the parsed
patterns are `["app", ""]`, and an instance whose image contains neither
`app` nor anything else in particular is accepted. -/
theorem C10_empty_pattern_witness : clientTrailingComma.filter appOther = true :=
  C10_empty_pattern clientTrailingComma appOther ["app", ""] rfl (by decide) rfl
    (by decide)

/-- C4: for a filter pattern as parsed by `RancherClient.__init__` (so never
`some []`), the filter accepts an instance iff its host is the self host, its
state is not `stopped`, and either no patterns are configured or some pattern
occurs in the image. -/
theorem C4_filter_iff (f : Option String) (c : RancherClient) (data : App)
    (h : c.filterPattern = mkFilterPattern f) :
    c.filter data = true ↔
      data.host = c.self_host ∧ data.state ≠ "stopped" ∧
        (c.filterPattern = none ∨
          ∃ pat ∈ c.filterPattern.getD [], findSubstr data.image pat = true) := by
  by_cases hh : data.host = c.self_host
  · by_cases hs : data.state = "stopped"
    · simp [RancherClient.filter, hh, hs]
    · cases hcf : c.filterPattern with
      | none => simp [RancherClient.filter, hh, hs, hcf, truthyFilterPattern]
      | some ps =>
        have hne : ps ≠ [] := by
          rintro rfl
          rw [h] at hcf
          exact mkFilterPattern_ne_some_nil f hcf
        have hts : truthyFilterPattern (some ps) = true := by
          cases ps with
          | nil => exact absurd rfl hne
          | cons a l => rfl
        simp [RancherClient.filter, hh, hs, hcf, hts, List.any_eq_true]
  · simp [RancherClient.filter, hh]

/-- C4 witness: a running instance on the self host whose image contains the
configured pattern `app` is accepted. -/
theorem C4_filter_iff_witness : clientApp.filter appA = true :=
  (C4_filter_iff (some "app") clientApp appA rfl).mpr
    ⟨rfl, by decide, Or.inr ⟨"app", by decide, by decide⟩⟩

/-- C1 counterexample: a metrics response whose body is not valid JSON is
decoded outside the `try` in `load_metrics`, so the decode error propagates
and the whole build fails instead of the instance contributing no metrics. -/
theorem C1_counterexample :
    generateRegistry badJsonWorld [appA] =
      Except.error "Expecting value: line 1 column 1 (char 0)" := rfl

/-- C1 (amended): an exception raised by the HTTP fetch itself (timeout,
connection error) is caught and the instance registers nothing while the
build continues; but malformed JSON in a received response body raises during
decode and propagates, failing the build. -/
theorem C1_amended (world1 world2 : String → FetchOutcome) (st : ReaderState) (app : App)
    (err e : String)
    (h1 : world1 (formatMetricsUrl app) = .exn err)
    (h2 : world2 (formatMetricsUrl app) = .response (.error e)) :
    registerMetrics world1 st app = .ok st ∧
      registerMetrics world2 st app = .error e := by
  refine ⟨?_, ?_⟩ <;> unfold registerMetrics loadMetrics
  · rw [h1]
  · rw [h2]

/-- C1 witness: a timed-out fetch leaves the fresh reader unchanged, while a
non-JSON body fails the registration with the decode error. -/
theorem C1_amended_witness :
    registerMetrics exnWorld initialReader appA = .ok initialReader ∧
      registerMetrics badJsonWorld initialReader appA =
        Except.error "Expecting value: line 1 column 1 (char 0)" :=
  C1_amended exnWorld badJsonWorld initialReader appA "ConnectTimeout"
    "Expecting value: line 1 column 1 (char 0)" rfl rfl

/-- C2 counterexample: when the registry build raises (for example the
orchestrator `hosts` endpoint is unreachable), `do_GET` produces no response
at all — the exception escapes before the `try`, and in particular no 500 is
sent. -/
theorem C2_counterexample :
    doGet (Except.error "ConnectionError: hosts endpoint unreachable") okSerializer none =
        GetResult.uncaughtException "ConnectionError: hosts endpoint unreachable" ∧
      (doGet (Except.error "ConnectionError: hosts endpoint unreachable") okSerializer
          none).isServerError = false :=
  ⟨rfl, rfl⟩

/-- C2 (amended): a build failure propagates out of `do_GET` uncaught, with
no response written; the 500 with the generic message is sent only when
serializing a successfully built registry fails. -/
theorem C2_amended (e e2 : String) (ser : ReaderState → Except String String)
    (names : Option (List String)) (st : ReaderState)
    (hser : ser (appliedRegistry st names) = .error e2) :
    doGet (Except.error e) ser names = GetResult.uncaughtException e ∧
      doGet (Except.ok st) ser names =
        GetResult.serverError 500 "error generating metric output" e2 := by
  refine ⟨rfl, ?_⟩
  dsimp only [doGet]
  rw [hser]

/-- C2 witness: with a failing serializer, a successful build gets the 500
with the generic message, while a failed build escapes uncaught. -/
theorem C2_amended_witness :
    doGet (Except.error "boom") failSerializer none = GetResult.uncaughtException "boom" ∧
      doGet (Except.ok initialReader) failSerializer none =
        GetResult.serverError 500 "error generating metric output" "serialization failed" :=
  C2_amended "boom" "serialization failed" failSerializer none initialReader rfl

/-- C7: a container whose `hostId` is absent from the loaded host mapping
fails the build: the `KeyError` fires while the descriptor is built, before
the visibility filter is consulted (the first part needs no assumption on the
filter or on the container's state), and the extraction of any container list
holding such a container never succeeds. -/
theorem C7_unresolved_host_fatal (c : RancherClient) (containers : List Container)
    (acc : List App)
    (h : ∃ ct ∈ containers, c.hostLookup ct.hostId = none) :
    (∀ (ct : Container) (rest : List Container) (acc2 : List App),
        c.hostLookup ct.hostId = none →
        c.extractSpringBootApps (ct :: rest) acc2 =
          .error ("KeyError: " ++ ct.hostId)) ∧
    ∀ r : List App, c.extractSpringBootApps containers acc ≠ .ok r := by
  have hstep : ∀ (ct : Container) (rest : List Container) (acc2 : List App),
      c.hostLookup ct.hostId = none →
      c.extractSpringBootApps (ct :: rest) acc2 = .error ("KeyError: " ++ ct.hostId) := by
    intro ct rest acc2 hct
    unfold RancherClient.extractSpringBootApps RancherClient.containerToApp
      RancherClient.getSpringBootAppHost
    rw [hct]
  refine ⟨hstep, ?_⟩
  induction containers generalizing acc with
  | nil =>
    rcases h with ⟨ct, hmem, _⟩
    cases hmem
  | cons ct rest ih =>
    rcases h with ⟨ct0, hmem, h0⟩
    intro r hok
    cases hca : c.containerToApp ct with
    | error e =>
      have herr : c.extractSpringBootApps (ct :: rest) acc = .error e := by
        simp only [RancherClient.extractSpringBootApps, hca]
      rw [herr] at hok
      exact Except.noConfusion hok
    | ok d =>
      have hd : c.extractSpringBootApps (ct :: rest) acc =
          c.extractSpringBootApps rest (if c.filter d then acc ++ [d] else acc) := by
        simp only [RancherClient.extractSpringBootApps, hca]
      rw [hd] at hok
      have hmem' : ct0 ∈ rest := by
        rcases List.mem_cons.mp hmem with heq | hm
        · subst heq
          unfold RancherClient.containerToApp RancherClient.getSpringBootAppHost at hca
          rw [h0] at hca
          exact Except.noConfusion hca
        · exact hm
      exact ih _ ⟨ct0, hmem', h0⟩ r hok

/-- C7 witness: a stopped container (which the filter would reject) on an
unknown host fails the extraction with a `KeyError`; in particular the result
is not the empty success. -/
theorem C7_unresolved_host_fatal_witness :
    clientNoFilter.extractSpringBootApps [orphanContainer] [] =
        Except.error "KeyError: hX" ∧
      clientNoFilter.extractSpringBootApps [orphanContainer] [] ≠ .ok [] :=
  by
  have T := C7_unresolved_host_fatal clientNoFilter [orphanContainer] []
    ⟨orphanContainer, by simp, rfl⟩
  exact ⟨T.1 orphanContainer [] [] rfl, T.2 []⟩

/-- C8: an instance whose metrics fetch raises (timeout, connection error)
leaves the reader state exactly as it was, and the whole build equals the
build over the remaining instances — the other instances' registrations are
untouched. -/
theorem C8_timeout_skipped (world : String → FetchOutcome) (a : App) (err : String)
    (pre post : List App) (st : ReaderState)
    (h : world (formatMetricsUrl a) = .exn err) :
    registerMetrics world st a = .ok st ∧
      registerAll world (pre ++ a :: post) st = registerAll world (pre ++ post) st := by
  have hreg : ∀ s : ReaderState, registerMetrics world s a = .ok s := by
    intro s
    unfold registerMetrics loadMetrics
    rw [h]
  refine ⟨hreg st, ?_⟩
  induction pre generalizing st with
  | nil =>
    show registerAll world (a :: post) st = registerAll world post st
    simp only [registerAll, hreg st]
  | cons p pre ih =>
    simp only [List.cons_append, registerAll]
    cases hm : registerMetrics world st p with
    | error e => rfl
    | ok st2 => exact ih st2

/-- C8 witness: against a world in which `appA`'s endpoint times out and
`appB` answers, registering `appA` is a no-op and the two-instance build
equals the build with `appB` alone. -/
theorem C8_timeout_skipped_witness :
    registerMetrics mixedWorld initialReader appA = .ok initialReader ∧
      registerAll mixedWorld [appB, appA] initialReader =
        registerAll mixedWorld [appB] initialReader :=
  C8_timeout_skipped mixedWorld appA "ConnectTimeout" [appB] [] initialReader rfl

theorem extractSpringBootApps_append (c : RancherClient) (xs ys : List Container)
    (acc : List App) :
    c.extractSpringBootApps (xs ++ ys) acc =
      (c.extractSpringBootApps xs acc).bind (c.extractSpringBootApps ys) := by
  induction xs generalizing acc with
  | nil => rfl
  | cons ct rest ih =>
    simp only [List.cons_append, RancherClient.extractSpringBootApps]
    cases hca : c.containerToApp ct with
    | error e => rfl
    | ok d => exact ih _

theorem getSpringBootAppsLoop_none (c : RancherClient) (world : Nat → Option Page)
    (fuel : Nat) (acc : List App) :
    getSpringBootAppsLoop c world fuel none acc = .ok acc := by
  cases fuel <;> rfl

theorem chainWorld_loop (c : RancherClient) (pages : List (List Container)) :
    ∀ (fuel i : Nat) (acc : List App), (hi : i < pages.length) →
      pages.length - i ≤ fuel →
      getSpringBootAppsLoop c (chainWorld pages) fuel (some i) acc =
        c.extractSpringBootApps ((pages.drop i).flatten) acc := by
  intro fuel
  induction fuel with
  | zero =>
    intro i acc hi hf
    omega
  | succ fuel ih =>
    intro i acc hi hf
    have hw : chainWorld pages i =
        some ⟨pages.get ⟨i, hi⟩, if i + 1 < pages.length then some (i + 1) else none⟩ := by
      unfold chainWorld
      rw [List.get?_eq_get hi]
    simp only [getSpringBootAppsLoop, hw]
    have hdrop : pages.drop i = pages.get ⟨i, hi⟩ :: pages.drop (i + 1) := by
      rw [List.drop_eq_getElem_cons hi]
      rfl
    rw [hdrop, List.flatten_cons, extractSpringBootApps_append]
    cases hex : c.extractSpringBootApps (pages.get ⟨i, hi⟩) acc with
    | error e => rfl
    | ok acc2 =>
      by_cases hlt : i + 1 < pages.length
      · simp only [hlt, if_true]
        exact ih (i + 1) acc2 hlt (by omega)
      · simp only [hlt, if_false]
        have : pages.drop (i + 1) = [] := List.drop_eq_nil_of_le (by omega)
        rw [this, getSpringBootAppsLoop_none]
        rfl

/-- C6: over a linear chain of pages linked by `pagination.next`, the listing
loop follows every page until the null link and accumulates the pages' data
arrays in page order — it equals one extraction pass over the concatenation
of all pages. -/
theorem C6_pagination (c : RancherClient) (pages : List (List Container)) (fuel : Nat)
    (hne : pages ≠ []) (hfuel : pages.length ≤ fuel) :
    getSpringBootApps c (chainWorld pages) fuel =
      c.extractSpringBootApps pages.flatten [] := by
  have h0 : 0 < pages.length := List.length_pos.mpr hne
  have h := chainWorld_loop c pages fuel 0 [] h0 (by omega)
  simpa using h

/-- C6 witness: three linked pages of two visible containers each yield
exactly six instances, in page order. -/
theorem C6_pagination_witness :
    pages6 ≠ [] ∧ pages6.length ≤ 3 ∧
      ((getSpringBootApps clientNoFilter (chainWorld pages6) 3).toOption.getD []).map
          App.name = ["svc1", "svc2", "svc3", "svc4", "svc5", "svc6"] := by
  refine ⟨by decide, by decide, ?_⟩
  rw [C6_pagination clientNoFilter pages6 3 (by decide) (by decide)]
  rfl

theorem contains_ne_true {l : List String} {a : String} (h : l.contains a = false) :
    ¬l.contains a = true := fun hx => by
  rw [h] at hx
  exact Bool.noConfusion hx

theorem not_mem_of_contains_false {l : List String} {a : String}
    (h : l.contains a = false) : a ∉ l := by
  simpa using h

theorem contains_append_singleton (l : List String) (n m : String) :
    (l ++ [n]).contains m = (l.contains m || decide (m = n)) := by
  induction l with
  | nil => simp
  | cons a l ih => simp [List.contains_cons, ih, Bool.or_assoc]

theorem count_append_pair (reg : List (MetricKind × String)) (p q : MetricKind × String) :
    (reg ++ [p]).count q = reg.count q + (if q = p then 1 else 0) := by
  rw [List.count_append]
  by_cases h : q = p
  · subst h
    simp
  · simp [h]

theorem cacheConsistent_initial : cacheConsistent initialReader :=
  fun _ => ⟨rfl, rfl, rfl⟩

theorem cacheConsistent_registerCounter (st : ReaderState) (app : App) (n : String)
    (v : Int) (h : cacheConsistent st) : cacheConsistent (registerCounter st app n v) := by
  intro m
  obtain ⟨h1, h2, h3⟩ := h m
  unfold registerCounter
  by_cases hc : st.counters.contains n = true
  · rw [if_pos hc]
    exact ⟨h1, h2, h3⟩
  · have hc' : st.counters.contains n = false := by simpa using hc
    rw [if_neg hc]
    refine ⟨?_, ?_, ?_⟩
    · show (st.registry ++ [(MetricKind.counter, n)]).count (MetricKind.counter, m) =
        if (st.counters ++ [n]).contains m then 1 else 0
      rw [count_append_pair, contains_append_singleton, h1]
      by_cases hmn : m = n
      · subst hmn
        simp [not_mem_of_contains_false hc']
      · simp [hmn]
    · show (st.registry ++ [(MetricKind.counter, n)]).count (MetricKind.gauge, m) =
        if st.gauges.contains m then 1 else 0
      rw [count_append_pair, h2]
      simp
    · show (st.registry ++ [(MetricKind.counter, n)]).count (MetricKind.summary, m) =
        if st.summaries.contains m then 1 else 0
      rw [count_append_pair, h3]
      simp

theorem cacheConsistent_registerGauge (st : ReaderState) (app : App) (n : String)
    (v : Int) (h : cacheConsistent st) : cacheConsistent (registerGauge st app n v) := by
  intro m
  obtain ⟨h1, h2, h3⟩ := h m
  unfold registerGauge
  by_cases hc : st.gauges.contains n = true
  · rw [if_pos hc]
    exact ⟨h1, h2, h3⟩
  · have hc' : st.gauges.contains n = false := by simpa using hc
    rw [if_neg hc]
    refine ⟨?_, ?_, ?_⟩
    · show (st.registry ++ [(MetricKind.gauge, n)]).count (MetricKind.counter, m) =
        if st.counters.contains m then 1 else 0
      rw [count_append_pair, h1]
      simp
    · show (st.registry ++ [(MetricKind.gauge, n)]).count (MetricKind.gauge, m) =
        if (st.gauges ++ [n]).contains m then 1 else 0
      rw [count_append_pair, contains_append_singleton, h2]
      by_cases hmn : m = n
      · subst hmn
        simp [not_mem_of_contains_false hc']
      · simp [hmn]
    · show (st.registry ++ [(MetricKind.gauge, n)]).count (MetricKind.summary, m) =
        if st.summaries.contains m then 1 else 0
      rw [count_append_pair, h3]
      simp

theorem cacheConsistent_registerSummary (st : ReaderState) (app : App) (n : String)
    (v : Int) (h : cacheConsistent st) : cacheConsistent (registerSummary st app n v) := by
  intro m
  obtain ⟨h1, h2, h3⟩ := h m
  unfold registerSummary
  by_cases hc : st.summaries.contains n = true
  · rw [if_pos hc]
    exact ⟨h1, h2, h3⟩
  · have hc' : st.summaries.contains n = false := by simpa using hc
    rw [if_neg hc]
    refine ⟨?_, ?_, ?_⟩
    · show (st.registry ++ [(MetricKind.summary, n)]).count (MetricKind.counter, m) =
        if st.counters.contains m then 1 else 0
      rw [count_append_pair, h1]
      simp
    · show (st.registry ++ [(MetricKind.summary, n)]).count (MetricKind.gauge, m) =
        if st.gauges.contains m then 1 else 0
      rw [count_append_pair, h2]
      simp
    · show (st.registry ++ [(MetricKind.summary, n)]).count (MetricKind.summary, m) =
        if (st.summaries ++ [n]).contains m then 1 else 0
      rw [count_append_pair, contains_append_singleton, h3]
      by_cases hmn : m = n
      · subst hmn
        simp [not_mem_of_contains_false hc']
      · simp [hmn]

theorem cacheConsistent_pair (st : ReaderState) (app : App) (m : String) (v : Int)
    (h : cacheConsistent st) : cacheConsistent (registerMetricPair st app m v) := by
  unfold registerMetricPair
  by_cases h1 : m.startsWith "counter"
  · simp only [h1, if_true]
    exact cacheConsistent_registerCounter _ _ _ _ h
  · by_cases h2 : m.startsWith "gauge"
    · simp only [h1, h2, if_false, if_true]
      exact cacheConsistent_registerGauge _ _ _ _ h
    · simp only [h1, h2, if_false]
      exact cacheConsistent_registerSummary _ _ _ _ h

theorem cacheConsistent_foldl (app : App) (metrics : List (String × Int)) :
    ∀ st : ReaderState, cacheConsistent st →
      cacheConsistent (metrics.foldl (fun st p => registerMetricPair st app p.1 p.2) st) := by
  induction metrics with
  | nil => exact fun st h => h
  | cons p rest ih =>
    intro st h
    rw [List.foldl_cons]
    exact ih (registerMetricPair st app p.1 p.2) (cacheConsistent_pair st app p.1 p.2 h)

theorem cacheConsistent_registerMetrics (world : String → FetchOutcome) (st : ReaderState)
    (app : App) (st2 : ReaderState) (h : cacheConsistent st)
    (hok : registerMetrics world st app = .ok st2) : cacheConsistent st2 := by
  unfold registerMetrics at hok
  cases hlm : loadMetrics world app with
  | error e =>
    rw [hlm] at hok
    exact Except.noConfusion hok
  | ok o =>
    rw [hlm] at hok
    cases o with
    | none =>
      have hok' : (Except.ok st : Except String ReaderState) = .ok st2 := hok
      injection hok' with hh
      subst hh
      exact h
    | some metrics =>
      have hok' :
          (Except.ok (metrics.foldl (fun st p => registerMetricPair st app p.1 p.2) st) :
            Except String ReaderState) = .ok st2 := hok
      injection hok' with hh
      subst hh
      exact cacheConsistent_foldl app metrics st h

theorem cacheConsistent_registerAll (world : String → FetchOutcome) (apps : List App) :
    ∀ st st2 : ReaderState, cacheConsistent st → registerAll world apps st = .ok st2 →
      cacheConsistent st2 := by
  induction apps with
  | nil =>
    intro st st2 h hok
    have hok' : (Except.ok st : Except String ReaderState) = .ok st2 := hok
    injection hok' with hh
    subst hh
    exact h
  | cons a rest ih =>
    intro st st2 h hok
    unfold registerAll at hok
    cases hm : registerMetrics world st a with
    | error e =>
      rw [hm] at hok
      exact Except.noConfusion hok
    | ok stm =>
      rw [hm] at hok
      exact ih stm st2 (cacheConsistent_registerMetrics world st a stm h hm) hok

/-- C9: within one build a collector is created at most once per name and
kind — when the name is already cached the registration reuses the existing
object (registry and cache are unchanged), when it is not the collector is
created and registered exactly then — and in any successfully built registry
each (kind, name) collector occurs at most once. -/
theorem C9_lazy_unique :
    (∀ (st : ReaderState) (app : App) (n : String) (v : Int),
      (st.counters.contains n = true →
        (registerCounter st app n v).registry = st.registry ∧
          (registerCounter st app n v).counters = st.counters) ∧
      (st.counters.contains n = false →
        (registerCounter st app n v).registry = st.registry ++ [(MetricKind.counter, n)] ∧
          (registerCounter st app n v).counters = st.counters ++ [n])) ∧
    (∀ (st : ReaderState) (app : App) (n : String) (v : Int),
      (st.gauges.contains n = true →
        (registerGauge st app n v).registry = st.registry ∧
          (registerGauge st app n v).gauges = st.gauges) ∧
      (st.gauges.contains n = false →
        (registerGauge st app n v).registry = st.registry ++ [(MetricKind.gauge, n)] ∧
          (registerGauge st app n v).gauges = st.gauges ++ [n])) ∧
    (∀ (st : ReaderState) (app : App) (n : String) (v : Int),
      (st.summaries.contains n = true →
        (registerSummary st app n v).registry = st.registry ∧
          (registerSummary st app n v).summaries = st.summaries) ∧
      (st.summaries.contains n = false →
        (registerSummary st app n v).registry = st.registry ++ [(MetricKind.summary, n)] ∧
          (registerSummary st app n v).summaries = st.summaries ++ [n])) ∧
    ∀ (world : String → FetchOutcome) (apps : List App) (st : ReaderState),
      generateRegistry world apps = .ok st →
        ∀ (k : MetricKind) (n : String), st.registry.count (k, n) ≤ 1 := by
  refine ⟨?_, ?_, ?_, ?_⟩
  · intro st app n v
    constructor <;> intro hc
    · unfold registerCounter
      rw [if_pos hc]
      exact ⟨rfl, rfl⟩
    · unfold registerCounter
      rw [if_neg (contains_ne_true hc)]
      exact ⟨rfl, rfl⟩
  · intro st app n v
    constructor <;> intro hc
    · unfold registerGauge
      rw [if_pos hc]
      exact ⟨rfl, rfl⟩
    · unfold registerGauge
      rw [if_neg (contains_ne_true hc)]
      exact ⟨rfl, rfl⟩
  · intro st app n v
    constructor <;> intro hc
    · unfold registerSummary
      rw [if_pos hc]
      exact ⟨rfl, rfl⟩
    · unfold registerSummary
      rw [if_neg (contains_ne_true hc)]
      exact ⟨rfl, rfl⟩
  · intro world apps st hok k n
    have hcc := cacheConsistent_registerAll world apps initialReader st
      cacheConsistent_initial hok
    obtain ⟨hc1, hc2, hc3⟩ := hcc n
    cases k with
    | counter =>
      rw [hc1]
      split <;> omega
    | gauge =>
      rw [hc2]
      split <;> omega
    | summary =>
      rw [hc3]
      split <;> omega

/-- C9 witness: creating the counter `x` on a fresh reader registers it once;
registering `x` again on a state that already has it changes neither the
cache nor the registry; and the concrete two-instance build with repeated
names holds each (kind, name) collector at most once. -/
theorem C9_lazy_unique_witness :
    ((registerCounter st1 appA "x" 7).registry = st1.registry ∧
      (registerCounter st1 appA "x" 7).counters = st1.counters) ∧
    ((registerCounter initialReader appA "x" 5).registry =
        initialReader.registry ++ [(MetricKind.counter, "x")] ∧
      (registerCounter initialReader appA "x" 5).counters =
        initialReader.counters ++ ["x"]) ∧
    c9final.registry.count (MetricKind.counter, "requests_total") ≤ 1 :=
  ⟨(C9_lazy_unique.1 st1 appA "x" 7).1 (by decide),
   (C9_lazy_unique.1 initialReader appA "x" 5).2 (by decide),
   C9_lazy_unique.2.2.2 sharedNamesWorld [appA, appB] c9final (by rfl) MetricKind.counter
     "requests_total"⟩

end SpringBootExporter
